import Mathlib

/-!
Shallow embedding of the animation playback state machine and the
time-driven effect system of PydayNightFunkin
(`pyday_night_funkin/graphics/pnf_animation.py` and
`pyday_night_funkin/core/pnf_sprite.py`).

Modelling conventions:
* Python floats are modelled as rationals (`ℚ`).  Every numeral that
  appears in the verified scenarios (0.1, 0.2, 1.0, 1.5, 2.5, ...) is a
  value for which the IEEE-double traces of the source agree with exact
  rational arithmetic (for instance `0.2 - 0.1 = 0.1` and
  `0.1 - 0.1 = 0` hold exactly for doubles, because the double nearest
  to 0.2 is twice the double nearest to 0.1).
* `pyglet.math.Vec2` is modelled as `ℚ × ℚ` with componentwise
  arithmetic (`Vec2.__add__` / `__sub__` are componentwise).
* Python dicts keyed by strings (animation names, tween attribute
  names) are modelled as association lists / functions keyed by `ℕ`;
  only key identity matters to the verified claims.
* Methods that can raise are modelled with `Except (PyErr × St) St`;
  the error also carries the object state at the moment the exception
  escapes, so "the state is unchanged by a failed call" is the
  provable statement `... = .error (e, input_state)`.
* The `while` loop of `AnimationController.update` consumes a
  runtime-dependent number of iterations, so it is modelled with an
  explicit fuel argument and returns `Option`; `none` means the fuel
  ran out or the Python code would have raised (`AttributeError` /
  `IndexError` on a malformed controller state).
-/

/-- `pyglet.math.Vec2`, componentwise rational arithmetic. -/
abbrev Vec2 : Type := ℚ × ℚ

/-- Python `round` on a rational: round half to even (banker's
rounding), as CPython's builtin `round` does. -/
def pyRound (q : ℚ) : ℤ :=
  if q - ⌊q⌋ < 1/2 then ⌊q⌋
  else if (1 : ℚ)/2 < q - ⌊q⌋ then ⌊q⌋ + 1
  else if ⌊q⌋ % 2 = 0 then ⌊q⌋ else ⌊q⌋ + 1

/-- One `frame_info` tuple `(x, y, w, h)` (`t.Tuple[int, int, int, int]`
in the source). -/
structure FrameInfo where
  x : ℤ
  y : ℤ
  w : ℤ
  h : ℤ
deriving DecidableEq

/-- `OffsetAnimationFrame`: texture (abstracted to an id), display
duration and per-frame source-rectangle info. -/
structure OffsetAnimationFrame where
  image : ℕ
  duration : ℚ
  frame_info : FrameInfo
deriving DecidableEq

/-- `PNFAnimation`: frame sequence, loop flag and optional
whole-animation offset (the tag set plays no role in any claim and is
omitted). -/
structure PNFAnimation where
  frames : List OffsetAnimationFrame
  loop : Bool
  offset : Option Vec2
deriving DecidableEq

/-- `FrameInfoTexture` (from `image_loader`): a texture handle plus its
`frame_info`, the element type of the frame sequences passed to
`AnimationController.add`. -/
structure FrameInfoTexture where
  texture : ℕ
  frame_info : FrameInfo
deriving DecidableEq

/-- Exception kinds raised by the modelled methods. -/
inductive PyErr where
  | valueError
  | keyError
  | indexError
  | typeError
deriving DecidableEq

/-- The mutable state of `AnimationController.__init__`. -/
structure AnimationController where
  animations : List (ℕ × PNFAnimation)
  playing : Bool
  current : Option PNFAnimation
  current_name : Option ℕ
  base_box : Option Vec2
  frame_idx : ℕ
  next_dt : ℚ
  frame_offset : Vec2
  new_offset : Option Vec2
  new_texture : Option ℕ
deriving DecidableEq

/-- The state built by `AnimationController.__init__`. -/
def AnimationController.init : AnimationController :=
  { animations := [], playing := false, current := none,
    current_name := none, base_box := none, frame_idx := 0,
    next_dt := 0, frame_offset := 0, new_offset := none,
    new_texture := none }

/-- The per-frame alignment offset computed inside
`_get_post_animate_offset`:
`round(fix - (base_box - fi_size) // 2)` componentwise, where `//` is
Python floor division (on the floats held by the `Vec2` base box,
modelled by `Int.floor` on `ℚ`). -/
def frameAlignOffset (fi : FrameInfo) (bb : Vec2) : Vec2 :=
  (((pyRound ((fi.x : ℚ) - (⌊(bb.1 - (fi.w : ℚ)) / 2⌋ : ℤ))) : ℤ),
   ((pyRound ((fi.y : ℚ) - (⌊(bb.2 - (fi.h : ℚ)) / 2⌋ : ℤ))) : ℤ))

/-- The alignment-offset formula as the specification words it:
`offset = frame.rect_origin - (bounding_box - frame.rect_size) / 2,
rounded to integer pixels (true division by 2 followed by rounding)`,
with `round` being Python's builtin (half-to-even).  Declared only to
be compared with `frameAlignOffset`, the formula the source computes. -/
def specFrameAlignOffset (fi : FrameInfo) (bb : Vec2) : Vec2 :=
  (((pyRound ((fi.x : ℚ) - (bb.1 - (fi.w : ℚ)) / 2)) : ℤ),
   ((pyRound ((fi.y : ℚ) - (bb.2 - (fi.h : ℚ)) / 2)) : ℤ))

/-- `_set_offset`: accumulate into the single pending offset slot. -/
def AnimationController.setOffset (off : Vec2) (c : AnimationController) :
    AnimationController :=
  let combined : Vec2 :=
    match c.new_offset with
    | none => off
    | some o => o + off
  { c with new_offset := some combined }

/-- `query_new_frame`: return and clear the pending texture slot. -/
def AnimationController.queryNewFrame (c : AnimationController) :
    Option ℕ × AnimationController :=
  (c.new_texture, { c with new_texture := none })

/-- `query_new_offset`: return and clear the pending offset slot. -/
def AnimationController.queryNewOffset (c : AnimationController) :
    Option Vec2 × AnimationController :=
  (c.new_offset, { c with new_offset := none })

/-- The cumulative un-queried pending offset: what `query_new_offset`
would deliver right now, an absent slot counting as zero displacement. -/
def AnimationController.pendingTotal (c : AnimationController) : Vec2 :=
  (c.queryNewOffset.1).getD 0

/-- `_set_base_box` on the `PNFAnimation` branch (the only branch the
repository exercises): the box spanned by the first frame's
`frame_info` diagonal; `none` when `frames` is empty (Python
`IndexError`). -/
def AnimationController.setBaseBoxFromAnimation (a : PNFAnimation)
    (c : AnimationController) : Option AnimationController :=
  match a.frames.get? 0 with
  | none => none
  | some fr =>
      let bb : Vec2 :=
        (((fr.frame_info.w - fr.frame_info.x : ℤ) : ℚ),
         ((fr.frame_info.h - fr.frame_info.y : ℤ) : ℚ))
      some { c with base_box := some bb }

/-- `_on_new_frame`: queue the current frame's texture, then queue the
offset delta `old_frame_offset - new_frame_offset` computed by
`_get_post_animate_offset` (which also stores the new frame offset). -/
def AnimationController.onNewFrame (c : AnimationController) :
    Option AnimationController :=
  match c.current with
  | none => none
  | some a =>
      match a.frames.get? c.frame_idx with
      | none => none
      | some fr =>
          let c1 := { c with new_texture := some fr.image }
          match c1.base_box with
          | none => none
          | some bb =>
              let newFo := frameAlignOffset fr.frame_info bb
              some (AnimationController.setOffset (c1.frame_offset - newFo)
                      { c1 with frame_offset := newFo })

/-- `_detach_animation`, given the currently attached animation:
returns the offset delta undoing the per-frame and whole-animation
offsets, and the detached controller state. -/
def AnimationController.detachAnimation (cur : PNFAnimation)
    (c : AnimationController) : Vec2 × AnimationController :=
  (c.frame_offset + (match cur.offset with | none => 0 | some o => o),
   { c with frame_offset := 0, playing := false, current := none,
            current_name := none })

/-- Result of the catch-up `while` loop of `update`. -/
inductive LoopRes where
  | cont (dt next : ℚ) (idx : ℕ) (fc : Bool)
  | stopped (idx : ℕ)
deriving DecidableEq

/-- The `while dt > _next_dt` loop of `AnimationController.update`,
with explicit fuel.  `aOpt` is `self.current`, read only when the loop
body runs (Python would raise `AttributeError` there on `None`).
`stopped idx` models the early `return` taken when a non-looping
animation runs past its last frame: `playing` is cleared and the
remaining statements of `update` (the `_next_dt` write-back and
`_on_new_frame`) are skipped. -/
def AnimationController.updateLoop (aOpt : Option PNFAnimation) :
    ℕ → ℚ → ℚ → ℕ → Bool → Option LoopRes
  | 0, _, _, _, _ => none
  | fuel+1, dt, next, idx, fc =>
      if next < dt then
        match aOpt with
        | none => none
        | some a =>
            if a.frames.length - 1 ≤ idx then
              if a.loop then
                match a.frames.get? 0 with
                | none => none
                | some fr =>
                    AnimationController.updateLoop aOpt fuel (dt - next)
                      fr.duration 0 true
              else some (LoopRes.stopped idx)
            else
              match a.frames.get? (idx + 1) with
              | none => none
              | some fr =>
                  AnimationController.updateLoop aOpt fuel (dt - next)
                    fr.duration (idx + 1) true
      else some (LoopRes.cont dt next idx fc)

/-- `AnimationController.update(dt)`. -/
def AnimationController.update (fuel : ℕ) (dt : ℚ)
    (c : AnimationController) : Option AnimationController :=
  if c.playing then
    match AnimationController.updateLoop c.current fuel dt c.next_dt
        c.frame_idx false with
    | none => none
    | some (LoopRes.stopped idx) =>
        some { c with playing := false, frame_idx := idx }
    | some (LoopRes.cont dtr nextr idx fc) =>
        let c1 := { c with frame_idx := idx }
        if fc then
          match AnimationController.onNewFrame c1 with
          | none => none
          | some c2 => some { c2 with next_dt := nextr - dtr }
        else some { c1 with next_dt := nextr - dtr }
  else some c

/-- `AnimationController.add(name, anim_data, fps, loop, offset)`.
`anim_data` is either a prebuilt `PNFAnimation` or a sequence of
`FrameInfoTexture` (the `Sum`).  The registered animation overwrites
any previous binding of `name` (association-list consing; `lookup`
finds the newest binding).  The first successful `add` on a controller
without a base box establishes it from the animation's first frame. -/
def AnimationController.add (name : ℕ)
    (animData : PNFAnimation ⊕ List FrameInfoTexture) (fps : ℚ)
    (loop : Bool) (offset : Option Vec2) (c : AnimationController) :
    Except (PyErr × AnimationController) AnimationController :=
  if fps ≤ 0 then .error (PyErr.valueError, c)
  else
    let spf := 1 / fps
    let animation :=
      match animData with
      | .inl a => a
      | .inr texs =>
          { frames := texs.map (fun t =>
              { image := t.texture, duration := spf,
                frame_info := t.frame_info }),
            loop := loop, offset := offset }
    let c1 := { c with animations := (name, animation) :: c.animations }
    if c1.base_box = none then
      match AnimationController.setBaseBoxFromAnimation animation c1 with
      | none => .error (PyErr.indexError, c1)
      | some c2 => .ok c2
    else .ok c1

/-- `AnimationController.play(name, force)`. -/
def AnimationController.play (name : ℕ) (force : Bool)
    (c : AnimationController) :
    Except (PyErr × AnimationController) AnimationController :=
  if c.current.isSome ∧ c.current_name = some name ∧ force = false then
    .ok (if c.playing then c else { c with playing := true })
  else
    let (delta1, c1) :=
      match c.current with
      | none => ((0 : Vec2), c)
      | some cur => AnimationController.detachAnimation cur c
    match c1.animations.lookup name with
    | none => .error (PyErr.keyError, c1)
    | some anim =>
        let c2 := { c1 with current := some anim, current_name := some name,
                            frame_idx := 0, playing := true }
        let res : Option (Vec2 × AnimationController) :=
          match anim.offset with
          | none => some (delta1, c2)
          | some off =>
              match AnimationController.setBaseBoxFromAnimation anim c2 with
              | none => none
              | some c3 => some (delta1 - off, c3)
        match res with
        | none => .error (PyErr.indexError, c2)
        | some (delta2, c3) =>
            match anim.frames.get? 0 with
            | none => .error (PyErr.indexError, c3)
            | some fr =>
                let c4 := AnimationController.setOffset delta2
                            { c3 with next_dt := fr.duration }
                match AnimationController.onNewFrame c4 with
                | none => .error (PyErr.typeError, c4)
                | some c5 => .ok c5

/-- The alignment offset of frame `i` of animation `a` against base box
`bb` (zero for an out-of-range index); the value `_frame_offset` holds
while that frame is current. -/
def alignAt (a : PNFAnimation) (i : ℕ) (bb : Vec2) : Vec2 :=
  match a.frames.get? i with
  | none => 0
  | some f => frameAlignOffset f.frame_info bb

/-- `PNFGroup`: a node of the render state-change hierarchy.  Only the
parent chain matters to `set_context`; `mk g` is `PNFGroup(g)`, `root`
a group without a parent. -/
inductive PNFGroup where
  | root
  | mk (parent : PNFGroup)
deriving DecidableEq

/-- `old_group.parent` as an optional value (Python attribute that can
be `None`). -/
def PNFGroup.parent? : PNFGroup → Option PNFGroup
  | PNFGroup.root => none
  | PNFGroup.mk p => some p

/-- `SceneContext`: the (batch, group, cameras) triple.  Batches and
cameras are abstracted to ids; only identity comparisons matter. -/
structure SceneContext where
  batch : ℕ
  group : PNFGroup
  cameras : List ℕ
deriving DecidableEq

/-- Modelled from the spec: `AnimationFrame` of
`core.animation.frames` (that module is not under `src/`; spec §3 and
the `PNFSprite.image` setter give a texture, source dimensions and an
offset per frame). -/
structure AnimationFrame where
  texture : ℕ
  source_dimensions : Vec2
  offset : Vec2
deriving DecidableEq

/-- Modelled from the spec: `FrameCollection` of
`core.animation.frames` (not under `src/`); the `frames` setter only
reads its `frames` list. -/
structure FrameCollection where
  frames : List AnimationFrame
deriving DecidableEq

/-- Modelled from the spec: `AnimationController.delete_animations` of
`core.animation` (not under `src/`).  Per the `image` setter docstring,
setting frames destroys any existing animations, so the registry and
any current playback are discarded. -/
def AnimationController.deleteAnimations (c : AnimationController) :
    AnimationController :=
  { c with animations := [], playing := false, current := none,
           current_name := none }

/-- The attribute state of a `PNFSprite` visible through its accessor
properties, plus the fields the verified methods touch.  GPU-side
interfacer channels are not modelled; the accessors of the claims all
read these Python-side fields. -/
structure PNFSprite where
  x : ℚ
  y : ℚ
  rotation : ℚ
  scale : ℚ
  scale_x : ℚ
  scale_y : ℚ
  color : ℕ × ℕ × ℕ
  opacity : ℤ
  offset : Vec2
  origin : Vec2
  scroll_factor : Vec2
  flip_x : Bool
  flip_y : Bool
  visible : Bool
  width : ℚ
  height : ℚ
  effects : List ℕ
  context : SceneContext
  animation : AnimationController
  frames : Option FrameCollection
  frame : Option AnimationFrame
  texture : ℕ
deriving DecidableEq

/-- The `position` property: `(self._x, self._y)`. -/
def PNFSprite.position (sp : PNFSprite) : ℚ × ℚ := (sp.x, sp.y)

/-- `PNFSprite.set_context(parent_context)`: update batch / group /
cameras of the existing context as needed and migrate the interfacer
(interfacer internals are not part of the modelled state). -/
def PNFSprite.setContext (parent : SceneContext) (sp : PNFSprite) :
    PNFSprite :=
  let changeBatch : Bool := decide (parent.batch ≠ sp.context.batch)
  let rebuildGroup : Bool :=
    decide (parent.cameras ≠ sp.context.cameras ∨
            sp.context.group.parent? ≠ some parent.group)
  let ctx1 :=
    if changeBatch then { sp.context with batch := parent.batch }
    else sp.context
  let ctx2 :=
    if rebuildGroup then
      { ctx1 with cameras := parent.cameras,
                  group := PNFGroup.mk parent.group }
    else ctx1
  { sp with context := ctx2 }

/-- `list.remove(e)`: drop the first occurrence, `none` when absent
(Python raises `ValueError`). -/
def removeFirst (e : ℕ) : List ℕ → Option (List ℕ)
  | [] => none
  | x :: xs =>
      if x = e then some xs
      else (removeFirst e xs).map (fun l => x :: l)

/-- `PNFSprite.remove_effect(*effects)`.  The second component lists
the `on_complete` callbacks invoked by the call: the source never
invokes any here (the `ValueError` of `list.remove` is swallowed, and
clearing does not fire callbacks). -/
def PNFSprite.removeEffect (es : List ℕ) (sp : PNFSprite) :
    PNFSprite × List ℕ :=
  if es.isEmpty then ({ sp with effects := [] }, [])
  else
    (es.foldl (fun s e =>
        match removeFirst e s.effects with
        | none => s
        | some l => { s with effects := l }) sp,
     [])

/-- The `PNFSprite.frames` property setter.  The empty-collection check
precedes every mutation; afterwards the animations are deleted, the
collection stored, frame 0 displayed (`_set_frame(0)`), the dimensions
taken from the frame and the origin centered. -/
def PNFSprite.setFrames (new_frames : FrameCollection) (sp : PNFSprite) :
    Except (PyErr × PNFSprite) PNFSprite :=
  if new_frames.frames = [] then .error (PyErr.valueError, sp)
  else
    let sp1 := { sp with animation := sp.animation.deleteAnimations,
                         frames := some new_frames }
    match new_frames.frames.get? 0 with
    | none => .error (PyErr.indexError, sp1)
    | some fr =>
        let sp2 := { sp1 with frame := some fr, texture := fr.texture }
        let sp3 := { sp2 with width := fr.source_dimensions.1,
                              height := fr.source_dimensions.2 }
        .ok { sp3 with origin := (fr.source_dimensions.1 / 2,
                                  fr.source_dimensions.2 / 2) }

/-- Modelled from the spec: `clamp` of `core.utils` (not under `src/`);
§4.4 uses it as `clamp(elapsed, 0, duration)`, ordinary interval
clamping. -/
def clamp (v lo hi : ℚ) : ℚ :=
  if v < lo then lo else if hi < v then hi else v

/-- `_Tween` state: curve, attribute map `name ↦ (initial, delta)`,
duration and elapsed time. -/
structure Tween where
  duration : ℚ
  cur_time : ℚ
  func : ℚ → ℚ
  attr_map : List (ℕ × ℚ × ℚ)

/-- `_Tween.update(dt, sprite)`: advance elapsed time, compute
`progress = func(clamp(cur_time, 0, duration) / duration)` and write
`initial + delta * progress` to every tracked attribute of the target
(the target is abstracted to its attribute valuation). -/
def Tween.update (dt : ℚ) (tw : Tween) (target : ℕ → ℚ) :
    Tween × (ℕ → ℚ) :=
  let tw1 := { tw with cur_time := tw.cur_time + dt }
  let progress := tw1.func (clamp tw1.cur_time 0 tw1.duration / tw1.duration)
  (tw1,
   tw1.attr_map.foldl
     (fun tgt p => fun nm => if nm = p.1 then p.2.1 + p.2.2 * progress else tgt nm)
     target)

/-- Fold `_Tween.update` over a list of tick durations. -/
def Tween.run : List ℚ → Tween → (ℕ → ℚ) → Tween × (ℕ → ℚ)
  | [], tw, tgt => (tw, tgt)
  | d :: rest, tw, tgt =>
      let p := Tween.update d tw tgt
      Tween.run rest p.1 p.2

/-- `Effect.is_finished` (shared by all effects): `cur_time >= duration`. -/
def Tween.isFinished (tw : Tween) : Bool := tw.duration ≤ tw.cur_time

/-- `Flicker` state: interval, forced end visibility, the next-toggle
threshold and the internal `_visible` flag. -/
structure Flicker where
  duration : ℚ
  cur_time : ℚ
  interval : ℚ
  end_visibility : Bool
  next_toggle : ℚ
  visible : Bool
deriving DecidableEq

/-- `Flicker.__init__(interval, start_visibility, end_visibility,
duration)` after its validity checks pass. -/
def Flicker.new (interval : ℚ) (startVis endVis : Bool) (duration : ℚ) :
    Flicker :=
  { duration := duration, cur_time := 0, interval := interval,
    end_visibility := endVis, next_toggle := interval,
    visible := startVis }

/-- `while self.cur_time >= self._next_toggle: self._next_toggle +=
self.interval`, in closed form: the threshold jumps past `cur` by the
least positive whole number of intervals.  `none` models divergence
(`interval <= 0`, which the constructor rejects). -/
def flickerAdvance (cur next itv : ℚ) : Option ℚ :=
  if next ≤ cur then
    if 0 < itv then some (next + ((⌊(cur - next) / itv⌋).toNat + 1) * itv)
    else none
  else some next

/-- `Flicker.update(dt, sprite)`: advance elapsed time; when finished,
force the sprite to the configured end visibility; otherwise, if the
threshold was reached, advance it past the elapsed time and flip the
visibility exactly once.  The second component is the sprite's
visibility after the call. -/
def Flicker.update (dt : ℚ) (f : Flicker) (spriteVis : Bool) :
    Option (Flicker × Bool) :=
  let f1 := { f with cur_time := f.cur_time + dt }
  if f1.duration ≤ f1.cur_time then some (f1, f1.end_visibility)
  else if f1.next_toggle ≤ f1.cur_time then
    match flickerAdvance f1.cur_time f1.next_toggle f1.interval with
    | none => none
    | some nt =>
        some ({ f1 with next_toggle := nt, visible := !f1.visible },
              !f1.visible)
  else some (f1, spriteVis)

/-- Fold `Flicker.update` over a list of tick durations, threading the
sprite's observed visibility. -/
def Flicker.run : List ℚ → Flicker → Bool → Option (Flicker × Bool)
  | [], f, vis => some (f, vis)
  | d :: rest, f, vis =>
      match Flicker.update d f vis with
      | none => none
      | some p => Flicker.run rest p.1 p.2

/-- `Effect.is_finished` for a flicker. -/
def Flicker.isFinished (f : Flicker) : Bool := f.duration ≤ f.cur_time

/-- Callback identities a `Toggle` can invoke. -/
inductive ToggleEv where
  | on
  | off
deriving DecidableEq

/-- `Toggle` state.  `interval` stores the constructor argument; the
source stores `pi / interval` and computes
`sin(self.cur_time * self.interval)`, an irrational-valued float
oscillation, which the update below abstracts as a parameter
`osc : ℚ → ℚ → ℚ` standing for `fun interval cur => sin(cur * pi /
interval)`; every verified property holds for all `osc`. -/
structure Toggle where
  duration : ℚ
  cur_time : ℚ
  cur_state : Bool
  invert : ℤ
  interval : ℚ
  end_active : Bool
deriving DecidableEq

/-- `Toggle.__init__(interval, start_active, end_active, duration)`
after its validity checks pass: `_invert` is `-1` when starting
inactive, else `1`. -/
def Toggle.new (interval : ℚ) (startActive endActive : Bool)
    (duration : ℚ) : Toggle :=
  { duration := duration, cur_time := 0, cur_state := startActive,
    invert := if startActive then 1 else -1, interval := interval,
    end_active := endActive }

/-- `Toggle.update(dt, sprite)`: the new state is the sign of the
(possibly inverted) oscillation; on a state change the matching
callback fires exactly once (returned as an event). -/
def Toggle.update (osc : ℚ → ℚ → ℚ) (dt : ℚ) (tg : Toggle) :
    Toggle × Option ToggleEv :=
  let tg1 := { tg with cur_time := tg.cur_time + dt }
  let newState : Bool :=
    decide (0 < osc tg1.interval tg1.cur_time * (tg1.invert : ℚ))
  if tg1.cur_state = newState then (tg1, none)
  else ({ tg1 with cur_state := newState },
        some (if newState then ToggleEv.on else ToggleEv.off))

/-- Fold `Toggle.update` over tick durations, collecting the fired
callbacks in order. -/
def Toggle.run (osc : ℚ → ℚ → ℚ) : List ℚ → Toggle → Toggle × List ToggleEv
  | [], tg => (tg, [])
  | d :: rest, tg =>
      let p := Toggle.update osc d tg
      let q := Toggle.run osc rest p.1
      (q.1, (match p.2 with | none => [] | some e => [e]) ++ q.2)

/-- `Effect.is_finished` for a toggle. -/
def Toggle.isFinished (tg : Toggle) : Bool := tg.duration ≤ tg.cur_time

/-- A concrete sprite state used by witnesses. -/
def spriteW : PNFSprite :=
  { x := 3, y := 4, rotation := 0, scale := 1, scale_x := 1, scale_y := 1,
    color := (255, 255, 255), opacity := 255, offset := 0, origin := 0,
    scroll_factor := (1, 1), flip_x := false, flip_y := false,
    visible := true, width := 0, height := 0, effects := [5],
    context := { batch := 1, group := PNFGroup.root, cameras := [0] },
    animation := AnimationController.init, frames := none, frame := none,
    texture := 0 }

/-- A one-frame looping animation used by witnesses. -/
def animW : PNFAnimation :=
  { frames := [{ image := 0, duration := 1,
                 frame_info := { x := 0, y := 0, w := 2, h := 2 } }],
    loop := true, offset := none }

/-- A controller currently playing `animW` under name `1`. -/
def ctrlW : AnimationController :=
  { AnimationController.init with
      animations := [(1, animW)], playing := true, current := some animW,
      current_name := some 1, base_box := some (2, 2),
      frame_offset := (1, 1) }

/-- The C8 instance: identity curve, one tracked attribute (key `0`
standing for `x`) starting at `0` with delta `10`, duration `1`. -/
def tweenLinearX : Tween :=
  { duration := 1, cur_time := 0, func := id, attr_map := [(0, 0, 10)] }

/-- A two-frame looping animation at 10 fps (frame duration 0.1 s). -/
def animLoop2 : PNFAnimation :=
  { frames :=
      [{ image := 0, duration := 1/10,
         frame_info := { x := 0, y := 0, w := 4, h := 4 } },
       { image := 1, duration := 1/10,
         frame_info := { x := 0, y := 0, w := 4, h := 4 } }],
    loop := true, offset := none }

/-- A controller in the middle of playing `animLoop2` from frame 0
(both frames of `animLoop2` have alignment offset `(0, 0)` against the
base box `(4, 4)`). -/
def ctrlLoop2 : AnimationController :=
  { animations := [(0, animLoop2)], playing := true,
    current := some animLoop2, current_name := some 0,
    base_box := some (4, 4), frame_idx := 0, next_dt := 1/10,
    frame_offset := 0, new_offset := some 0,
    new_texture := none }

/-- Result of the single catch-up call of the C3 witness. -/
def catchupU : AnimationController :=
  { ctrlLoop2 with
      next_dt := 0,
      frame_offset := ((0 : ℚ), (0 : ℚ)),
      new_offset := some ((0 : ℚ), (0 : ℚ)),
      new_texture := some 0 }

/-- State after the first of the three split calls of the C3 witness. -/
def catchupV1 : AnimationController :=
  { ctrlLoop2 with
      frame_idx := 1,
      next_dt := 1/20,
      frame_offset := ((0 : ℚ), (0 : ℚ)),
      new_offset := some ((0 : ℚ), (0 : ℚ)),
      new_texture := some 1 }

/-- State after the second of the three split calls of the C3 witness. -/
def catchupV2 : AnimationController :=
  { ctrlLoop2 with
      frame_idx := 0,
      next_dt := 1/20,
      frame_offset := ((0 : ℚ), (0 : ℚ)),
      new_offset := some ((0 : ℚ), (0 : ℚ)),
      new_texture := some 0 }

/-- State after the third of the three split calls of the C3 witness. -/
def catchupV : AnimationController :=
  { catchupV2 with next_dt := 0 }

/-- A four-frame non-looping animation whose frames carry distinct
alignment offsets (frame `i` has `rect_origin.x = 10 * i`). -/
def anim4 : PNFAnimation :=
  { frames :=
      [{ image := 0, duration := 1,
         frame_info := { x := 0, y := 0, w := 0, h := 0 } },
       { image := 1, duration := 1,
         frame_info := { x := 10, y := 0, w := 0, h := 0 } },
       { image := 2, duration := 1,
         frame_info := { x := 20, y := 0, w := 0, h := 0 } },
       { image := 3, duration := 1,
         frame_info := { x := 30, y := 0, w := 0, h := 0 } }],
    loop := false, offset := none }

/-- Controller state right after `add` + `play` of `anim4`. -/
def ctrl4 : AnimationController :=
  match AnimationController.add 0 (Sum.inl anim4) 24 false none
      AnimationController.init with
  | .error e => e.2
  | .ok c1 =>
      match AnimationController.play 0 false c1 with
      | .error e => e.2
      | .ok c2 => c2

/-- `ctrl4`, evaluated. -/
def ctrl4lit : AnimationController :=
  { animations := [(0, anim4)], playing := true, current := some anim4,
    current_name := some 0, base_box := some ((0 : ℚ), (0 : ℚ)),
    frame_idx := 0, next_dt := 1, frame_offset := ((0 : ℚ), (0 : ℚ)),
    new_offset := some ((0 : ℚ), (0 : ℚ)), new_texture := some 0 }

/-- `ctrl4lit` after one `update(1.5)`. -/
def ctrl4a : AnimationController :=
  { ctrl4lit with
      frame_idx := 1,
      next_dt := 1/2,
      frame_offset := ((10 : ℚ), (0 : ℚ)),
      new_offset := some ((-10 : ℚ), (0 : ℚ)),
      new_texture := some 1 }

/-- `ctrl4a` after another `update(1.5)`. -/
def ctrl4b : AnimationController :=
  { ctrl4lit with
      frame_idx := 2,
      next_dt := 0,
      frame_offset := ((20 : ℚ), (0 : ℚ)),
      new_offset := some ((-20 : ℚ), (0 : ℚ)),
      new_texture := some 2 }

/-- `ctrl4b` after a third `update(1.5)`: the animation end is hit, so
only `playing` and `frame_idx` change. -/
def ctrl4c : AnimationController :=
  { ctrl4b with playing := false, frame_idx := 3 }

/-- A two-frame looping animation whose second frame has an odd,
negative `bounding_box - rect_size` difference, where floor division
and round-after-true-division disagree. -/
def animOdd : PNFAnimation :=
  { frames :=
      [{ image := 0, duration := 1,
         frame_info := { x := 0, y := 0, w := 0, h := 0 } },
       { image := 1, duration := 1,
         frame_info := { x := 0, y := 0, w := -3, h := -3 } }],
    loop := true, offset := none }

/-- Controller state right after `add` + `play` of `animOdd`. -/
def ctrlOdd : AnimationController :=
  match AnimationController.add 0 (Sum.inl animOdd) 1 true none
      AnimationController.init with
  | .error e => e.2
  | .ok c1 =>
      match AnimationController.play 0 false c1 with
      | .error e => e.2
      | .ok c2 => c2

/-- `ctrlOdd`, evaluated. -/
def ctrlOddLit : AnimationController :=
  { animations := [(0, animOdd)], playing := true, current := some animOdd,
    current_name := some 0, base_box := some ((0 : ℚ), (0 : ℚ)),
    frame_idx := 0, next_dt := 1, frame_offset := ((0 : ℚ), (0 : ℚ)),
    new_offset := some ((0 : ℚ), (0 : ℚ)), new_texture := some 0 }

def mkAnim2 (t0 t1 : FrameInfoTexture) : PNFAnimation :=
  { frames :=
      [{ image := t0.texture, duration := 1/10, frame_info := t0.frame_info },
       { image := t1.texture, duration := 1/10, frame_info := t1.frame_info }],
    loop := true, offset := none }

def c1Run (s0 : AnimationController) (t0 t1 : FrameInfoTexture) (name : ℕ) :
    Option (ℕ × ℕ) :=
  match AnimationController.add name (Sum.inr [t0, t1]) 10 true none s0 with
  | .error _ => none
  | .ok c1 =>
      match AnimationController.play name false c1 with
      | .error _ => none
      | .ok c2 =>
          match AnimationController.update 10 (2/10) c2 with
          | none => none
          | some u =>
              match AnimationController.update 10 (2/10) u with
              | none => none
              | some v => some (u.frame_idx, v.frame_idx)

def flickA : Flicker :=
  { duration := 5/2, cur_time := 1, interval := 1, end_visibility := false,
    next_toggle := 2, visible := false }

def flickB : Flicker :=
  { duration := 5/2, cur_time := 2, interval := 1, end_visibility := false,
    next_toggle := 3, visible := true }

/-! ## Helper facts -/
lemma removeFirst_eq_none_of_not_mem (e : ℕ) :
    ∀ l : List ℕ, e ∉ l → removeFirst e l = none := by
  intro l
  induction l with
  | nil => intro _; rfl
  | cons x xs ih =>
      intro h
      have hx : x ≠ e := fun hxe => h (hxe ▸ List.mem_cons_self x xs)
      have hxs : e ∉ xs := fun hm => h (List.mem_cons_of_mem x hm)
      simp [removeFirst, hx, ih hxs]

/-! ## Claims C5, C6, C7 -/
/-- C5: registering an animation with `fps <= 0` (via
`AnimationController.add`), or setting a frame collection of length 0
(via the `PNFSprite.frames` setter), raises `ValueError` synchronously,
and the error escapes with the object state exactly as it was before
the call: registry, base box and every other field are untouched. -/
theorem config_error_rejected_before_mutation :
    (∀ (c : AnimationController) (name : ℕ)
       (d : PNFAnimation ⊕ List FrameInfoTexture) (fps : ℚ) (loop : Bool)
       (off : Option Vec2), fps ≤ 0 →
         AnimationController.add name d fps loop off c =
           .error (PyErr.valueError, c)) ∧
    (∀ (sp : PNFSprite) (fc : FrameCollection), fc.frames = [] →
       PNFSprite.setFrames fc sp = .error (PyErr.valueError, sp)) := by
  constructor
  · intro c name d fps loop off h
    simp [AnimationController.add, h]
  · intro sp fc h
    simp [PNFSprite.setFrames, h]

theorem config_error_rejected_before_mutation_witness :
    AnimationController.add 0 (Sum.inr []) 0 false none
        AnimationController.init =
      .error (PyErr.valueError, AnimationController.init) ∧
    PNFSprite.setFrames { frames := [] } spriteW =
      .error (PyErr.valueError, spriteW) :=
  ⟨config_error_rejected_before_mutation.1 AnimationController.init 0
      (Sum.inr []) 0 false none (by norm_num),
   config_error_rejected_before_mutation.2 spriteW { frames := [] } rfl⟩

/-- C6: `set_context` on a parent context with a different batch leaves
every attribute observed through the sprite's own accessors (position,
rotation, scale, scale_x, scale_y, color, opacity, offset, origin,
scroll_factor) unchanged; the whole sprite state is unchanged except
the context, whose batch becomes the new one. -/
theorem set_context_preserves_attributes :
    ∀ (sp : PNFSprite) (pc : SceneContext),
      pc.batch ≠ sp.context.batch →
      (PNFSprite.setContext pc sp).position = sp.position ∧
      (PNFSprite.setContext pc sp).rotation = sp.rotation ∧
      (PNFSprite.setContext pc sp).scale = sp.scale ∧
      (PNFSprite.setContext pc sp).scale_x = sp.scale_x ∧
      (PNFSprite.setContext pc sp).scale_y = sp.scale_y ∧
      (PNFSprite.setContext pc sp).color = sp.color ∧
      (PNFSprite.setContext pc sp).opacity = sp.opacity ∧
      (PNFSprite.setContext pc sp).offset = sp.offset ∧
      (PNFSprite.setContext pc sp).origin = sp.origin ∧
      (PNFSprite.setContext pc sp).scroll_factor = sp.scroll_factor ∧
      (PNFSprite.setContext pc sp) =
        { sp with context := (PNFSprite.setContext pc sp).context } ∧
      (PNFSprite.setContext pc sp).context.batch = pc.batch := by
  intro sp pc h
  refine ⟨rfl, rfl, rfl, rfl, rfl, rfl, rfl, rfl, rfl, rfl, rfl, ?_⟩
  simp only [PNFSprite.setContext]
  have hb : decide (pc.batch ≠ sp.context.batch) = true := by
    simp [h]
  simp only [hb, if_true]
  split <;> rfl

theorem set_context_preserves_attributes_witness :
    (PNFSprite.setContext { batch := 2, group := PNFGroup.root,
                            cameras := [0] } spriteW).position =
      spriteW.position ∧
    (PNFSprite.setContext { batch := 2, group := PNFGroup.root,
                            cameras := [0] } spriteW).context.batch = 2 := by
  have h := set_context_preserves_attributes spriteW
    { batch := 2, group := PNFGroup.root, cameras := [0] } (by decide)
  exact ⟨h.1, h.2.2.2.2.2.2.2.2.2.2.2⟩

/-- C7: removing an effect absent from the active list is a silent
no-op leaving the sprite (list included) unchanged, and `remove_effect`
with no arguments clears the list; in both cases no `on_complete`
callback fires (the second component of the result). -/
theorem remove_effect_absent_noop_clear_all :
    (∀ (sp : PNFSprite) (e : ℕ), e ∉ sp.effects →
       PNFSprite.removeEffect [e] sp = (sp, [])) ∧
    (∀ sp : PNFSprite,
       PNFSprite.removeEffect [] sp = ({ sp with effects := [] }, [])) := by
  constructor
  · intro sp e h
    simp [PNFSprite.removeEffect, removeFirst_eq_none_of_not_mem e sp.effects h]
  · intro sp
    simp [PNFSprite.removeEffect]

theorem remove_effect_absent_noop_clear_all_witness :
    PNFSprite.removeEffect [7] spriteW = (spriteW, []) ∧
    PNFSprite.removeEffect [] spriteW =
      ({ spriteW with effects := [] }, []) :=
  ⟨remove_effect_absent_noop_clear_all.1 spriteW 7 (by decide),
   remove_effect_absent_noop_clear_all.2 spriteW⟩

/-! ## Claim C9 -/
/-- C9: `play(name)` with an unregistered `name` while an animation is
attached raises `KeyError`, and the error escapes only after the old
animation was already detached: the state carried by the exception has
`playing = false`, `current = current_name = none` and the stored frame
offset reset to zero, while every other field (in particular the
pending offset slot, to which the detach delta is never added, and the
registry) is unchanged. -/
theorem play_missing_name_keyerror_after_detach :
    ∀ (c : AnimationController) (name : ℕ) (a : PNFAnimation),
      c.current = some a → c.current_name ≠ some name →
      c.animations.lookup name = none →
      AnimationController.play name false c =
        .error (PyErr.keyError,
          { c with playing := false, current := none,
                   current_name := none, frame_offset := 0 }) := by
  intro c name a hcur hname hlook
  simp [AnimationController.play, hcur, hname, hlook,
        AnimationController.detachAnimation]

theorem play_missing_name_keyerror_after_detach_witness :
    AnimationController.play 2 false ctrlW =
      .error (PyErr.keyError,
        { ctrlW with playing := false, current := none,
                     current_name := none, frame_offset := 0 }) :=
  play_missing_name_keyerror_after_detach ctrlW 2 animW rfl
    (by decide) (by decide)

/-! ## Claim C10 -/
lemma toggle_update_end_active (osc : ℚ → ℚ → ℚ) (dt : ℚ) (tg : Toggle)
    (b : Bool) :
    (Toggle.update osc dt { tg with end_active := b }).1 =
      { (Toggle.update osc dt tg).1 with end_active := b } ∧
    (Toggle.update osc dt { tg with end_active := b }).2 =
      (Toggle.update osc dt tg).2 := by
  unfold Toggle.update
  dsimp only
  by_cases h :
      tg.cur_state =
        decide (0 < osc tg.interval (tg.cur_time + dt) * (tg.invert : ℚ))
  · simp [h]
  · simp [h]

lemma toggle_run_end_active (osc : ℚ → ℚ → ℚ) (dts : List ℚ) :
    ∀ (tg : Toggle) (b : Bool),
      (Toggle.run osc dts { tg with end_active := b }).1 =
        { (Toggle.run osc dts tg).1 with end_active := b } ∧
      (Toggle.run osc dts { tg with end_active := b }).2 =
        (Toggle.run osc dts tg).2 := by
  induction dts with
  | nil => intro tg b; exact ⟨rfl, rfl⟩
  | cons d rest ih =>
      intro tg b
      have hu := toggle_update_end_active osc d tg b
      have ihr := ih (Toggle.update osc d tg).1 b
      constructor
      · show (Toggle.run osc rest (Toggle.update osc d
            { tg with end_active := b }).1).1 = _
        rw [hu.1, ihr.1]
        rfl
      · show (match (Toggle.update osc d { tg with end_active := b }).2 with
              | none => [] | some e => [e]) ++
            (Toggle.run osc rest (Toggle.update osc d
              { tg with end_active := b }).1).2 = _
        rw [hu.1, hu.2, ihr.2]
        rfl

/-- C10: a `Toggle`'s behaviour is independent of `end_active`: two
toggles identical apart from that constructor argument, driven by the
same tick sequence (for every oscillation function abstracting
`sin(cur_time * pi / interval)`), fire the same callbacks in the same
order, report the same `is_finished`, and end in states equal in every
field except the stored `end_active` itself; in particular finishing
never forces the active state to `end_active`. -/
theorem toggle_end_active_noninterference :
    ∀ (osc : ℚ → ℚ → ℚ) (dts : List ℚ) (interval duration : ℚ)
      (startA e1 e2 : Bool),
      (Toggle.run osc dts (Toggle.new interval startA e1 duration)).2 =
        (Toggle.run osc dts (Toggle.new interval startA e2 duration)).2 ∧
      (Toggle.run osc dts (Toggle.new interval startA e1 duration)).1 =
        { (Toggle.run osc dts (Toggle.new interval startA e2 duration)).1
          with end_active := e1 } ∧
      (Toggle.run osc dts
          (Toggle.new interval startA e1 duration)).1.isFinished =
        (Toggle.run osc dts
          (Toggle.new interval startA e2 duration)).1.isFinished := by
  intro osc dts interval duration startA e1 e2
  have key : Toggle.new interval startA e1 duration =
      { Toggle.new interval startA e2 duration with end_active := e1 } := rfl
  have h := toggle_run_end_active osc dts
    (Toggle.new interval startA e2 duration) e1
  refine ⟨?_, ?_, ?_⟩
  · rw [key, h.2]
  · rw [key, h.1]
  · rw [key, h.1]
    simp [Toggle.isFinished]

/-! ## Claim C8 -/
lemma tween_foldl_skip (progress : ℚ) :
    ∀ (l : List (ℕ × ℚ × ℚ)) (tgt : ℕ → ℚ) (nm : ℕ),
      nm ∉ l.map Prod.fst →
      (l.foldl (fun t p => fun n =>
          if n = p.1 then p.2.1 + p.2.2 * progress else t n) tgt) nm =
        tgt nm := by
  intro l
  induction l with
  | nil => intro tgt nm _; rfl
  | cons p rest ih =>
      intro tgt nm h
      have h1 : nm ≠ p.1 := by
        intro he; exact h (by simp [he])
      have h2 : nm ∉ rest.map Prod.fst := by
        intro hm; exact h (by simp [hm])
      simp only [List.foldl_cons]
      rw [ih _ nm h2]
      simp [h1]

lemma tween_foldl_write (progress : ℚ) :
    ∀ (l : List (ℕ × ℚ × ℚ)) (tgt : ℕ → ℚ) (nm : ℕ) (vi vd : ℚ),
      (l.map Prod.fst).Nodup → (nm, vi, vd) ∈ l →
      (l.foldl (fun t p => fun n =>
          if n = p.1 then p.2.1 + p.2.2 * progress else t n) tgt) nm =
        vi + vd * progress := by
  intro l
  induction l with
  | nil => intro tgt nm vi vd _ hm; cases hm
  | cons p rest ih =>
      intro tgt nm vi vd hnd hm
      have hnd1 : (p.1 :: rest.map Prod.fst).Nodup := by
        simpa using hnd
      have hp := (List.nodup_cons.mp hnd1).1
      have hnd2 := (List.nodup_cons.mp hnd1).2
      rcases List.mem_cons.mp hm with he | hr
      · have hnm : nm = p.1 := by rw [← he]
        simp only [List.foldl_cons]
        rw [tween_foldl_skip progress rest _ nm (hnm ▸ hp)]
        rw [← he]
        simp
      · exact ih _ nm vi vd hnd2 hr

lemma tween_run_state (dts : List ℚ) :
    ∀ (tw : Tween) (tgt : ℕ → ℚ),
      (Tween.run dts tw tgt).1 =
        { tw with cur_time := tw.cur_time + dts.sum } := by
  induction dts with
  | nil => intro tw tgt; simp [Tween.run]
  | cons d rest ih =>
      intro tw tgt
      show (Tween.run rest _ _).1 = _
      rw [ih]
      simp [Tween.update, add_assoc]

lemma tween_run_concat (dts : List ℚ) (d : ℚ) :
    ∀ (tw : Tween) (tgt : ℕ → ℚ),
      Tween.run (dts ++ [d]) tw tgt =
        Tween.update d (Tween.run dts tw tgt).1 (Tween.run dts tw tgt).2 := by
  induction dts with
  | nil => intro tw tgt; rfl
  | cons e rest ih =>
      intro tw tgt
      show Tween.run (rest ++ [d]) _ _ = _
      rw [ih]
      rfl

/-- C8: every `_Tween.update(dt)` writes
`initial + delta * curve(clamp(elapsed, 0, duration) / duration)` to
each tracked attribute of the target; consequently the identity-curve
tween over `x: (0, +10)` with duration 1 leaves `x = 5` exactly after
any nonempty update sequence whose elapsed times sum to `0.5`. -/
theorem tween_progress_write :
    (∀ (tw : Tween) (target : ℕ → ℚ) (dt : ℚ) (nm : ℕ) (vi vd : ℚ),
       (tw.attr_map.map Prod.fst).Nodup → (nm, vi, vd) ∈ tw.attr_map →
       (Tween.update dt tw target).2 nm =
         vi + vd * tw.func (clamp (tw.cur_time + dt) 0 tw.duration /
           tw.duration)) ∧
    (∀ (dts : List ℚ) (target : ℕ → ℚ), dts ≠ [] → dts.sum = 1/2 →
       (Tween.run dts tweenLinearX target).2 0 = 5) := by
  constructor
  · intro tw target dt nm vi vd hnd hm
    exact tween_foldl_write _ tw.attr_map target nm vi vd hnd hm
  · intro dts target hne hsum
    rcases List.eq_nil_or_concat dts with h | ⟨l, d, rfl⟩
    · exact absurd h hne
    · simp only [List.concat_eq_append] at hsum ⊢
      rw [tween_run_concat, tween_run_state]
      have hsum2 : l.sum + d = 1/2 := by
        simpa using hsum
      have hc : clamp (l.sum + d) 0 1 = 1/2 := by
        rw [hsum2]
        norm_num [clamp]
      simp only [Tween.update, tweenLinearX, List.foldl_cons, List.foldl_nil]
      simp [hc]
      norm_num

theorem tween_progress_write_witness :
    (Tween.update (1/4) tweenLinearX (fun _ => 0)).2 0 =
      0 + 10 * tweenLinearX.func
        (clamp (tweenLinearX.cur_time + 1/4) 0 tweenLinearX.duration /
          tweenLinearX.duration) ∧
    (Tween.run [1/4, 1/4] tweenLinearX (fun _ => 0)).2 0 = 5 :=
  ⟨tween_progress_write.1 tweenLinearX (fun _ => 0) (1/4) 0 0 10
      (by decide) (by decide),
   tween_progress_write.2 [1/4, 1/4] (fun _ => 0) (by decide) (by norm_num)⟩

/-! ## Update-loop invariants (used by C2 and C3) -/
lemma update_not_playing (fuel : ℕ) (dt : ℚ) (c : AnimationController)
    (h : c.playing = false) :
    AnimationController.update fuel dt c = some c := by
  simp [AnimationController.update, h]

lemma updateLoop_inv (a : PNFAnimation) :
    ∀ (fuel : ℕ) (dt next : ℚ) (idx : ℕ) (fc : Bool) (dtr nextr : ℚ)
      (idxr : ℕ) (fcr : Bool),
      idx < a.frames.length →
      AnimationController.updateLoop (some a) fuel dt next idx fc =
        some (LoopRes.cont dtr nextr idxr fcr) →
      idxr < a.frames.length ∧ (fcr = false → fc = false ∧ idxr = idx) := by
  intro fuel
  induction fuel with
  | zero =>
      intro dt next idx fc dtr nextr idxr fcr _ hl
      simp [AnimationController.updateLoop] at hl
  | succ n ih =>
      intro dt next idx fc dtr nextr idxr fcr hidx hl
      simp only [AnimationController.updateLoop] at hl
      by_cases hlt : next < dt
      · rw [if_pos hlt] at hl
        by_cases hend : a.frames.length - 1 ≤ idx
        · rw [if_pos hend] at hl
          by_cases hloop : a.loop = true
          · rw [if_pos hloop] at hl
            cases hg : a.frames.get? 0 with
            | none => rw [hg] at hl; cases hl
            | some fr =>
                rw [hg] at hl
                have h0 : 0 < a.frames.length := by
                  rcases List.get?_eq_some.mp hg with ⟨h, _⟩
                  exact h
                have := ih (dt - next) fr.duration 0 true dtr nextr idxr fcr
                  h0 hl
                refine ⟨this.1, ?_⟩
                intro hf
                exact absurd (this.2 hf).1 (by simp)
          · rw [if_neg hloop] at hl
            cases hl
        · rw [if_neg hend] at hl
          cases hg : a.frames.get? (idx + 1) with
          | none => rw [hg] at hl; cases hl
          | some fr =>
              rw [hg] at hl
              have h1 : idx + 1 < a.frames.length := by
                rcases List.get?_eq_some.mp hg with ⟨h, _⟩
                exact h
              have := ih (dt - next) fr.duration (idx + 1) true dtr nextr
                idxr fcr h1 hl
              refine ⟨this.1, ?_⟩
              intro hf
              exact absurd (this.2 hf).1 (by simp)
      · rw [if_neg hlt] at hl
        have := Option.some.inj hl
        cases this
        exact ⟨hidx, fun hf => ⟨hf, rfl⟩⟩

lemma pendingTotal_setOffset (off : Vec2) (c : AnimationController) :
    (AnimationController.setOffset off c).pendingTotal =
      c.pendingTotal + off := by
  unfold AnimationController.setOffset AnimationController.pendingTotal
    AnimationController.queryNewOffset
  cases c.new_offset with
  | none => simp
  | some o => simp

lemma update_pending (fuel : ℕ) (dt : ℚ) (c c2 : AnimationController)
    (a : PNFAnimation) (bb : Vec2)
    (hca : c.current = some a) (hbb : c.base_box = some bb)
    (hidx : c.frame_idx < a.frames.length)
    (hfo : c.frame_offset = alignAt a c.frame_idx bb)
    (hp : c.playing = true)
    (hu : AnimationController.update fuel dt c = some c2)
    (hp2 : c2.playing = true) :
    c2.current = some a ∧ c2.base_box = some bb ∧
    c2.frame_idx < a.frames.length ∧
    c2.frame_offset = alignAt a c2.frame_idx bb ∧
    c2.pendingTotal = c.pendingTotal +
      (alignAt a c.frame_idx bb - alignAt a c2.frame_idx bb) := by
  unfold AnimationController.update at hu
  rw [hp] at hu
  simp only [if_true] at hu
  rw [hca] at hu
  cases hl : AnimationController.updateLoop (some a) fuel dt c.next_dt
      c.frame_idx false with
  | none => rw [hl] at hu; cases hu
  | some r =>
      rw [hl] at hu
      cases r with
      | stopped i =>
          have := Option.some.inj hu
          rw [← this] at hp2
          cases hp2
      | cont dtr nextr idxr fcr =>
          dsimp only at hu
          have hinv := updateLoop_inv a fuel dt c.next_dt c.frame_idx false
            dtr nextr idxr fcr hidx hl
          by_cases hfc : fcr = true
          · rw [if_pos hfc] at hu
            have hfr := List.get?_eq_get hinv.1
            unfold AnimationController.onNewFrame at hu
            dsimp only at hu
            rw [hfr] at hu
            dsimp only at hu
            rw [hbb] at hu
            dsimp only at hu
            have hc2 := Option.some.inj hu
            rw [← hc2]
            refine ⟨rfl, rfl, hinv.1, ?_, ?_⟩
            · show frameAlignOffset _ bb = alignAt a idxr bb
              unfold alignAt
              rw [hfr]
            · show (AnimationController.setOffset _ _).pendingTotal = _
              rw [pendingTotal_setOffset]
              show c.pendingTotal + (c.frame_offset - frameAlignOffset _ bb) = _
              rw [hfo]
              congr 1
              show _ = alignAt a c.frame_idx bb - alignAt a idxr bb
              unfold alignAt
              rw [hfr]
          · have hfc2 : fcr = false := by
              cases hb : fcr
              · rfl
              · exact absurd hb hfc
            rcases hinv.2 hfc2 with ⟨_, hsame⟩
            rw [if_neg hfc] at hu
            have hc2 := Option.some.inj hu
            rw [← hc2]
            refine ⟨rfl, hbb, ?_, ?_, ?_⟩
            · show idxr < a.frames.length
              rw [hsame]; exact hidx
            · show c.frame_offset = alignAt a idxr bb
              rw [hsame]; exact hfo
            · show c.pendingTotal = c.pendingTotal +
                (alignAt a c.frame_idx bb - alignAt a idxr bb)
              rw [hsame, sub_self, add_zero]

/-! ## Claim C3 -/
/-- C3 (amended): provided playback survives every call (the catch-up
loop's early return at a non-looping animation's end never fires), a
single `update` call leaves the same cumulative un-queried pending
offset as any split of the work into three calls ending on the same
frame, and that total is the old total plus the telescoped sum of the
per-frame alignment deltas (offsets accumulate additively into the
pending slot, they never overwrite it). -/
theorem update_catchup_pending_sum
    (fuel fuel1 fuel2 fuel3 : ℕ) (d d1 d2 d3 : ℚ)
    (c u v1 v2 v : AnimationController) (a : PNFAnimation) (bb : Vec2)
    (hca : c.current = some a) (hbb : c.base_box = some bb)
    (hidx : c.frame_idx < a.frames.length)
    (hfo : c.frame_offset = alignAt a c.frame_idx bb)
    (hp : c.playing = true)
    (hu : AnimationController.update fuel d c = some u)
    (hup : u.playing = true)
    (h1 : AnimationController.update fuel1 d1 c = some v1)
    (h2 : AnimationController.update fuel2 d2 v1 = some v2)
    (h3 : AnimationController.update fuel3 d3 v2 = some v)
    (hvp : v.playing = true)
    (hsame : u.frame_idx = v.frame_idx) :
    u.pendingTotal = v.pendingTotal ∧
    u.pendingTotal = c.pendingTotal +
      (alignAt a c.frame_idx bb - alignAt a u.frame_idx bb) := by
  have step : ∀ (f : ℕ) (dd : ℚ) (x y : AnimationController),
      AnimationController.update f dd x = some y → y.playing = true →
      x.playing = false → False := by
    intro f dd x y hxy hyp hxf
    rw [update_not_playing f dd x hxf] at hxy
    rw [← Option.some.inj hxy] at hyp
    rw [hxf] at hyp
    cases hyp
  have hv2p : v2.playing = true := by
    cases hb : v2.playing
    · exact absurd (step fuel3 d3 v2 v h3 hvp hb) not_false
    · rfl
  have hv1p : v1.playing = true := by
    cases hb : v1.playing
    · exact absurd (step fuel2 d2 v1 v2 h2 hv2p hb) not_false
    · rfl
  have P1 := update_pending fuel1 d1 c v1 a bb hca hbb hidx hfo hp h1 hv1p
  have P2 := update_pending fuel2 d2 v1 v2 a bb P1.1 P1.2.1 P1.2.2.1
    P1.2.2.2.1 hv1p h2 hv2p
  have P3 := update_pending fuel3 d3 v2 v a bb P2.1 P2.2.1 P2.2.2.1
    P2.2.2.2.1 hv2p h3 hvp
  have PU := update_pending fuel d c u a bb hca hbb hidx hfo hp hu hup
  constructor
  · rw [PU.2.2.2.2, P3.2.2.2.2, P2.2.2.2.2, P1.2.2.2.2, hsame]
    abel
  · exact PU.2.2.2.2

lemma catchup_step_u :
    AnimationController.update 10 (3/10) ctrlLoop2 = some catchupU := by
  norm_num [ctrlLoop2, animLoop2, catchupU, AnimationController.update,
    AnimationController.updateLoop, AnimationController.onNewFrame,
    AnimationController.setOffset, frameAlignOffset, pyRound, Prod.ext_iff]

lemma catchup_step_1 :
    AnimationController.update 10 (3/20) ctrlLoop2 = some catchupV1 := by
  norm_num [ctrlLoop2, animLoop2, catchupV1, AnimationController.update,
    AnimationController.updateLoop, AnimationController.onNewFrame,
    AnimationController.setOffset, frameAlignOffset, pyRound, Prod.ext_iff]

lemma catchup_step_2 :
    AnimationController.update 10 (1/10) catchupV1 = some catchupV2 := by
  norm_num [ctrlLoop2, animLoop2, catchupV1, catchupV2,
    AnimationController.update, AnimationController.updateLoop,
    AnimationController.onNewFrame, AnimationController.setOffset,
    frameAlignOffset, pyRound, Prod.ext_iff]

lemma catchup_step_3 :
    AnimationController.update 10 (1/20) catchupV2 = some catchupV := by
  norm_num [ctrlLoop2, animLoop2, catchupV2, catchupV,
    AnimationController.update, AnimationController.updateLoop,
    AnimationController.onNewFrame, AnimationController.setOffset,
    frameAlignOffset, pyRound, Prod.ext_iff]

lemma ctrlLoop2_align :
    ctrlLoop2.frame_offset = alignAt animLoop2 ctrlLoop2.frame_idx (4, 4) := by
  norm_num [ctrlLoop2, animLoop2, alignAt, frameAlignOffset, pyRound,
    Prod.ext_iff]

theorem update_catchup_pending_sum_witness :
    catchupU.pendingTotal = catchupV.pendingTotal ∧
    catchupU.pendingTotal = ctrlLoop2.pendingTotal +
      (alignAt animLoop2 ctrlLoop2.frame_idx (4, 4) -
       alignAt animLoop2 catchupU.frame_idx (4, 4)) :=
  update_catchup_pending_sum 10 10 10 10 (3/10) (3/20) (1/10) (1/20)
    ctrlLoop2 catchupU catchupV1 catchupV2 catchupV animLoop2 (4, 4)
    rfl rfl (by norm_num [ctrlLoop2, animLoop2]) ctrlLoop2_align rfl
    catchup_step_u rfl catchup_step_1 catchup_step_2 catchup_step_3
    rfl rfl

lemma ctrl4_eq : ctrl4 = ctrl4lit := by
  norm_num [ctrl4, anim4, ctrl4lit, AnimationController.add,
    AnimationController.play, AnimationController.init,
    AnimationController.setBaseBoxFromAnimation,
    AnimationController.setOffset, AnimationController.onNewFrame,
    AnimationController.detachAnimation, frameAlignOffset, pyRound,
    List.lookup, Prod.ext_iff]

lemma ctrl4_single :
    AnimationController.update 10 (9/2) ctrl4lit =
      some { ctrl4lit with playing := false, frame_idx := 3 } := by
  norm_num [ctrl4lit, anim4, AnimationController.update,
    AnimationController.updateLoop, AnimationController.onNewFrame,
    AnimationController.setOffset, frameAlignOffset, pyRound, Prod.ext_iff]

lemma ctrl4_s1 :
    AnimationController.update 10 (3/2) ctrl4lit = some ctrl4a := by
  norm_num [ctrl4lit, ctrl4a, anim4, AnimationController.update,
    AnimationController.updateLoop, AnimationController.onNewFrame,
    AnimationController.setOffset, frameAlignOffset, pyRound, Prod.ext_iff]

lemma ctrl4_s2 :
    AnimationController.update 10 (3/2) ctrl4a = some ctrl4b := by
  norm_num [ctrl4lit, ctrl4a, ctrl4b, anim4, AnimationController.update,
    AnimationController.updateLoop, AnimationController.onNewFrame,
    AnimationController.setOffset, frameAlignOffset, pyRound, Prod.ext_iff]

lemma ctrl4_s3 :
    AnimationController.update 10 (3/2) ctrl4b = some ctrl4c := by
  norm_num [ctrl4lit, ctrl4b, ctrl4c, anim4, AnimationController.update,
    AnimationController.updateLoop, AnimationController.onNewFrame,
    AnimationController.setOffset, frameAlignOffset, pyRound, Prod.ext_iff]

/-- C3 counterexample: on the non-looping `anim4` (playing, frame 0,
1 s per frame), the single call `update(4.5)` advances across the three
frame boundaries 0→1→2→3 and then hits the animation end: the early
return discards every offset delta, leaving the pending total at 0,
while three single-frame calls `update(1.5)` covering the same frames
leave the telescoped pending total (-20, 0).  The claim's universal
statement ("for every playing animation and every dt") fails here. -/
theorem update_catchup_stop_discards_deltas :
    Option.map (fun s : AnimationController => (s.frame_idx, s.pendingTotal))
        (AnimationController.update 10 (9/2) ctrl4) =
      some (3, ((0 : ℚ), (0 : ℚ))) ∧
    Option.map (fun s : AnimationController => (s.frame_idx, s.pendingTotal))
        (Option.bind
          (Option.bind (AnimationController.update 10 (3/2) ctrl4)
            (AnimationController.update 10 (3/2)))
          (AnimationController.update 10 (3/2))) =
      some (3, ((-20 : ℚ), (0 : ℚ))) ∧
    (((0 : ℚ), (0 : ℚ)) : Vec2) ≠ (((-20 : ℚ), (0 : ℚ)) : Vec2) := by
  refine ⟨?_, ?_, by norm_num [Prod.ext_iff]⟩
  · rw [ctrl4_eq, ctrl4_single]
    norm_num [AnimationController.pendingTotal,
      AnimationController.queryNewOffset, ctrl4lit]
  · rw [ctrl4_eq, ctrl4_s1]
    simp only [Option.bind]
    rw [ctrl4_s2]
    simp only [Option.bind]
    rw [ctrl4_s3]
    norm_num [AnimationController.pendingTotal,
      AnimationController.queryNewOffset, ctrl4c, ctrl4b, ctrl4lit]

/-! ## Claim C2 -/
lemma pyRound_intCast (k : ℤ) : pyRound ((k : ℚ)) = k := by
  unfold pyRound
  rw [Int.floor_intCast]
  norm_num

lemma align_component (x w m : ℤ) :
    ((pyRound ((x : ℚ) - (⌊((m : ℚ) - (w : ℚ)) / 2⌋ : ℤ))) : ℚ) =
      ((⌈(x : ℚ) - ((m : ℚ) - (w : ℚ)) / 2⌉ : ℤ) : ℚ) := by
  have hc : ((x : ℚ) - (⌊((m : ℚ) - (w : ℚ)) / 2⌋ : ℤ)) =
      (((x - ⌊((m : ℚ) - (w : ℚ)) / 2⌋ : ℤ)) : ℚ) := by
    push_cast
    ring
  rw [hc, pyRound_intCast]
  congr 1
  rw [sub_eq_neg_add ((x : ℚ)) (((m : ℚ) - (w : ℚ)) / 2), Int.ceil_add_int,
    Int.ceil_neg]
  ring

/-- C2 (amended): the alignment offset the code computes is
`rect_origin - (bounding_box - rect_size) // 2` with Python floor
division, which equals the ceiling (not the Python `round`) of
`rect_origin - (bounding_box - rect_size) / 2`; and across any `update`
call that leaves the controller playing, the pending offset total grows
by exactly the previous frame's alignment offset minus the new
frame's. -/
theorem frame_align_offset_floor_div_delta :
    (∀ (fi : FrameInfo) (m n : ℤ),
       frameAlignOffset fi ((m : ℚ), (n : ℚ)) =
         (((⌈(fi.x : ℚ) - ((m : ℚ) - (fi.w : ℚ)) / 2⌉ : ℤ) : ℚ),
          ((⌈(fi.y : ℚ) - ((n : ℚ) - (fi.h : ℚ)) / 2⌉ : ℤ) : ℚ))) ∧
    (∀ (fuel : ℕ) (dt : ℚ) (c c2 : AnimationController)
       (a : PNFAnimation) (bb : Vec2),
       c.current = some a → c.base_box = some bb →
       c.frame_idx < a.frames.length →
       c.frame_offset = alignAt a c.frame_idx bb → c.playing = true →
       AnimationController.update fuel dt c = some c2 →
       c2.playing = true →
       c2.pendingTotal = c.pendingTotal +
         (alignAt a c.frame_idx bb - alignAt a c2.frame_idx bb)) := by
  constructor
  · intro fi m n
    unfold frameAlignOffset
    rw [align_component fi.x fi.w m, align_component fi.y fi.h n]
  · intro fuel dt c c2 a bb hca hbb hidx hfo hp hu hp2
    exact (update_pending fuel dt c c2 a bb hca hbb hidx hfo hp hu
      hp2).2.2.2.2

theorem frame_align_offset_floor_div_delta_witness :
    frameAlignOffset { x := 0, y := 0, w := 0, h := 0 } ((3 : ℚ), (3 : ℚ)) =
      (((⌈((0 : ℤ) : ℚ) - (((3 : ℤ) : ℚ) - ((0 : ℤ) : ℚ)) / 2⌉ : ℤ) : ℚ),
       ((⌈((0 : ℤ) : ℚ) - (((3 : ℤ) : ℚ) - ((0 : ℤ) : ℚ)) / 2⌉ : ℤ) : ℚ)) ∧
    catchupU.pendingTotal = ctrlLoop2.pendingTotal +
      (alignAt animLoop2 ctrlLoop2.frame_idx (4, 4) -
       alignAt animLoop2 catchupU.frame_idx (4, 4)) :=
  ⟨frame_align_offset_floor_div_delta.1 { x := 0, y := 0, w := 0, h := 0 }
      3 3,
   frame_align_offset_floor_div_delta.2 10 (3/10) ctrlLoop2 catchupU
     animLoop2 (4, 4) rfl rfl (by norm_num [ctrlLoop2, animLoop2])
     ctrlLoop2_align rfl catchup_step_u rfl⟩

lemma ctrlOdd_eq : ctrlOdd = ctrlOddLit := by
  norm_num [ctrlOdd, animOdd, ctrlOddLit, AnimationController.add,
    AnimationController.play, AnimationController.init,
    AnimationController.setBaseBoxFromAnimation,
    AnimationController.setOffset, AnimationController.onNewFrame,
    AnimationController.detachAnimation, frameAlignOffset, pyRound,
    List.lookup, Prod.ext_iff]

lemma ctrlOdd_step :
    AnimationController.update 10 (3/2)
        { ctrlOddLit with new_offset := none } =
      some { ctrlOddLit with
              frame_idx := 1,
              next_dt := 1/2,
              frame_offset := ((-1 : ℚ), (-1 : ℚ)),
              new_offset := some ((1 : ℚ), (1 : ℚ)),
              new_texture := some 1 } := by
  norm_num [ctrlOddLit, animOdd, AnimationController.update,
    AnimationController.updateLoop, AnimationController.onNewFrame,
    AnimationController.setOffset, frameAlignOffset, pyRound, Prod.ext_iff]

/-- C2 counterexample: crossing from `animOdd`'s frame 0 into frame 1
(whose `bounding_box - rect_size` difference is the odd, negative
`(3, 3)`), the code produces the pending offset delta `(1, 1)` — floor
division — while the claimed formula (true division by 2 followed by
Python rounding, which rounds -1.5 half-to-even to -2) predicts the
delta `(2, 2)`. -/
theorem frame_align_offset_spec_round_mismatch :
    Option.map (fun s : AnimationController => s.new_offset)
        (AnimationController.update 10 (3/2)
          (AnimationController.queryNewOffset ctrlOdd).2) =
      some (some ((1 : ℚ), (1 : ℚ))) ∧
    specFrameAlignOffset { x := 0, y := 0, w := 0, h := 0 }
        ((0 : ℚ), (0 : ℚ)) -
      specFrameAlignOffset { x := 0, y := 0, w := -3, h := -3 }
        ((0 : ℚ), (0 : ℚ)) = ((2 : ℚ), (2 : ℚ)) ∧
    (((1 : ℚ), (1 : ℚ)) : Vec2) ≠ ((2 : ℚ), (2 : ℚ)) := by
  refine ⟨?_, ?_, by norm_num [Prod.ext_iff]⟩
  · have hq : (AnimationController.queryNewOffset ctrlOdd).2 =
        { ctrlOddLit with new_offset := none } := by
      rw [ctrlOdd_eq]
      rfl
    rw [hq, ctrlOdd_step]
    rfl
  · norm_num [specFrameAlignOffset, pyRound, Prod.ext_iff]

/-! ## Claim C1 -/
lemma play_fresh (c : AnimationController) (name : ℕ) (anim : PNFAnimation)
    (f0 : OffsetAnimationFrame) (bb : Vec2)
    (hcur : c.current = none)
    (hlook : c.animations.lookup name = some anim)
    (hoff : anim.offset = none)
    (hf0 : anim.frames.get? 0 = some f0)
    (hbb : c.base_box = some bb) :
    ∃ c2, AnimationController.play name false c = .ok c2 ∧
      c2.playing = true ∧ c2.current = some anim ∧ c2.frame_idx = 0 ∧
      c2.next_dt = f0.duration ∧ c2.base_box = some bb ∧
      c2.frame_offset = frameAlignOffset f0.frame_info bb := by
  unfold AnimationController.play
  rw [if_neg (by simp [hcur])]
  rw [hcur]
  dsimp only
  rw [hlook]
  dsimp only
  rw [hoff]
  dsimp only
  rw [hf0]
  dsimp only
  unfold AnimationController.onNewFrame AnimationController.setOffset
  dsimp only
  rw [hf0]
  dsimp only
  rw [hbb]
  dsimp only
  exact ⟨_, rfl, rfl, rfl, rfl, rfl, rfl, rfl⟩

lemma updateLoop_succ (aOpt : Option PNFAnimation) (fuel : ℕ) (dt next : ℚ)
    (idx : ℕ) (fc : Bool) :
    AnimationController.updateLoop aOpt (fuel + 1) dt next idx fc =
      if next < dt then
        match aOpt with
        | none => none
        | some a =>
            if a.frames.length - 1 ≤ idx then
              if a.loop then
                match a.frames.get? 0 with
                | none => none
                | some fr =>
                    AnimationController.updateLoop aOpt fuel (dt - next)
                      fr.duration 0 true
              else some (LoopRes.stopped idx)
            else
              match a.frames.get? (idx + 1) with
              | none => none
              | some fr =>
                  AnimationController.updateLoop aOpt fuel (dt - next)
                    fr.duration (idx + 1) true
      else some (LoopRes.cont dt next idx fc) := rfl

lemma upd_two_frame_first (c : AnimationController) (anim : PNFAnimation)
    (f0 f1 : OffsetAnimationFrame) (bb : Vec2)
    (hp : c.playing = true) (hca : c.current = some anim)
    (hfr : anim.frames = [f0, f1]) (hd1 : f1.duration = 1/10)
    (hidx : c.frame_idx = 0) (hnext : c.next_dt = 1/10)
    (hbb : c.base_box = some bb) :
    ∃ u, AnimationController.update 10 (2/10) c = some u ∧
      u.playing = true ∧ u.current = some anim ∧ u.frame_idx = 1 ∧
      u.next_dt = 0 ∧ u.base_box = some bb := by
  have hloop : AnimationController.updateLoop (some anim) 10 (2/10) (1/10)
      0 false = some (LoopRes.cont (1/10) (1/10) 1 true) := by
    rw [show (10 : ℕ) = 9 + 1 from rfl, updateLoop_succ]
    rw [if_pos (by norm_num : (1 : ℚ)/10 < 2/10)]
    dsimp only
    rw [hfr]
    rw [if_neg (by norm_num : ¬([f0, f1].length - 1 ≤ 0))]
    dsimp only [List.get?]
    rw [hd1]
    rw [show (2 : ℚ)/10 - 1/10 = 1/10 by norm_num]
    rw [show (9 : ℕ) = 8 + 1 from rfl, updateLoop_succ]
    rw [if_neg (by norm_num : ¬((1 : ℚ)/10 < 1/10))]
  unfold AnimationController.update
  rw [if_pos hp, hca, hidx, hnext, hloop]
  dsimp only
  unfold AnimationController.onNewFrame AnimationController.setOffset
  dsimp only
  rw [hfr]
  dsimp only [List.get?]
  rw [hbb]
  dsimp only
  refine ⟨_, rfl, hp, rfl, rfl, by norm_num, rfl⟩

lemma upd_two_frame_second (c : AnimationController) (anim : PNFAnimation)
    (f0 f1 : OffsetAnimationFrame) (bb : Vec2)
    (hp : c.playing = true) (hca : c.current = some anim)
    (hfr : anim.frames = [f0, f1]) (hlp : anim.loop = true)
    (hd0 : f0.duration = 1/10) (hd1 : f1.duration = 1/10)
    (hidx : c.frame_idx = 1) (hnext : c.next_dt = 0)
    (hbb : c.base_box = some bb) :
    ∃ v, AnimationController.update 10 (2/10) c = some v ∧
      v.playing = true ∧ v.frame_idx = 1 := by
  have hloop : AnimationController.updateLoop (some anim) 10 (2/10) 0
      1 false = some (LoopRes.cont (1/10) (1/10) 1 true) := by
    rw [show (10 : ℕ) = 9 + 1 from rfl, updateLoop_succ]
    rw [if_pos (by norm_num : (0 : ℚ) < 2/10)]
    dsimp only
    rw [hfr]
    rw [if_pos (by norm_num : [f0, f1].length - 1 ≤ 1)]
    rw [hlp]
    dsimp only [List.get?]
    rw [hd0]
    rw [show (2 : ℚ)/10 - 0 = 2/10 by norm_num]
    rw [show (9 : ℕ) = 8 + 1 from rfl, updateLoop_succ]
    rw [if_pos (by norm_num : (1 : ℚ)/10 < 2/10)]
    dsimp only
    rw [hfr]
    rw [if_neg (by norm_num : ¬([f0, f1].length - 1 ≤ 0))]
    dsimp only [List.get?]
    rw [hd1]
    rw [show (2 : ℚ)/10 - 1/10 = 1/10 by norm_num]
    rw [show (8 : ℕ) = 7 + 1 from rfl, updateLoop_succ]
    rw [if_neg (by norm_num : ¬((1 : ℚ)/10 < 1/10))]
    norm_num
  unfold AnimationController.update
  rw [if_pos hp, hca, hidx, hnext, hloop]
  dsimp only
  unfold AnimationController.onNewFrame AnimationController.setOffset
  dsimp only
  rw [hfr]
  dsimp only [List.get?]
  rw [hbb]
  dsimp only
  exact ⟨_, rfl, hp, rfl⟩

lemma add_two (s0 : AnimationController) (name : ℕ)
    (t0 t1 : FrameInfoTexture) :
    ∃ c1 bb, AnimationController.add name (Sum.inr [t0, t1]) 10 true none s0 =
        .ok c1 ∧
      c1.current = s0.current ∧
      c1.animations.lookup name = some (mkAnim2 t0 t1) ∧
      c1.base_box = some bb := by
  unfold AnimationController.add
  rw [if_neg (by norm_num : ¬(10 : ℚ) ≤ 0)]
  dsimp only [List.map]
  cases hbb : s0.base_box with
  | none =>
      rw [if_pos rfl]
      unfold AnimationController.setBaseBoxFromAnimation
      dsimp only [List.get?]
      refine ⟨_, _, rfl, rfl, ?_, rfl⟩
      simp [List.lookup, mkAnim2]
  | some bb0 =>
      rw [if_neg (by simp)]
      refine ⟨_, bb0, rfl, rfl, ?_, rfl⟩
      simp [List.lookup, mkAnim2]

/-- C1 (amended): after `add(name, frames=[f0, f1], fps=10, loop=true)`
on any controller with no current animation, `play(name)` followed by
`update(0.2)` leaves the controller at frame index 1 (one frame
advanced); the second `update(0.2)` wraps through frame 0 and advances
to frame index 1 again, not to frame index 0: the catch-up loop uses a
strict comparison, so a frame whose remaining time is exactly exhausted
is only left once the accumulated time strictly exceeds it. -/
theorem anim_loop_second_update_frame_idx
    (s0 : AnimationController) (t0 t1 : FrameInfoTexture) (name : ℕ)
    (hcur : s0.current = none) :
    c1Run s0 t0 t1 name = some (1, 1) := by
  obtain ⟨c1, bb, hadd, hcur1, hlook, hbb1⟩ := add_two s0 name t0 t1
  obtain ⟨c2, hplay, hp2, hca2, hidx2, hnext2, hbb2, _⟩ :=
    play_fresh c1 name (mkAnim2 t0 t1)
      { image := t0.texture, duration := 1/10, frame_info := t0.frame_info }
      bb (hcur1.trans hcur) hlook rfl rfl hbb1
  obtain ⟨u, hu, hpu, hcau, hidxu, hnextu, hbbu⟩ :=
    upd_two_frame_first c2 (mkAnim2 t0 t1)
      { image := t0.texture, duration := 1/10, frame_info := t0.frame_info }
      { image := t1.texture, duration := 1/10, frame_info := t1.frame_info }
      bb hp2 hca2 rfl rfl hidx2 hnext2 hbb2
  obtain ⟨v, hv, hpv, hidxv⟩ :=
    upd_two_frame_second u (mkAnim2 t0 t1)
      { image := t0.texture, duration := 1/10, frame_info := t0.frame_info }
      { image := t1.texture, duration := 1/10, frame_info := t1.frame_info }
      bb hpu hcau rfl rfl rfl rfl hidxu hnextu hbbu
  unfold c1Run
  rw [hadd]
  dsimp only
  rw [hplay]
  dsimp only
  rw [hu]
  dsimp only
  rw [hv]
  dsimp only
  rw [hidxu, hidxv]

theorem anim_loop_second_update_frame_idx_witness :
    c1Run AnimationController.init
      { texture := 0, frame_info := { x := 0, y := 0, w := 10, h := 10 } }
      { texture := 1, frame_info := { x := 0, y := 0, w := 10, h := 10 } }
      5 = some (1, 1) :=
  anim_loop_second_update_frame_idx AnimationController.init
    { texture := 0, frame_info := { x := 0, y := 0, w := 10, h := 10 } }
    { texture := 1, frame_info := { x := 0, y := 0, w := 10, h := 10 } }
    5 rfl

/-- C1 counterexample: on a fresh controller with
`add(0, frames=[f0, f1], fps=10, loop=true)`, `play(0)`, `update(0.2)`,
`update(0.2)`, the frame index after the second `update(0.2)` is not 0:
the controller wraps through frame 0 and ends the call on frame 1. -/
theorem anim_loop_second_update_not_frame_zero :
    Option.map Prod.snd
      (c1Run AnimationController.init
        { texture := 0, frame_info := { x := 0, y := 0, w := 10, h := 10 } }
        { texture := 1, frame_info := { x := 0, y := 0, w := 10, h := 10 } }
        0) ≠ some 0 := by
  norm_num [c1Run, AnimationController.add, AnimationController.play,
    AnimationController.update, AnimationController.updateLoop,
    AnimationController.onNewFrame, AnimationController.setOffset,
    AnimationController.setBaseBoxFromAnimation,
    AnimationController.detachAnimation, AnimationController.init,
    frameAlignOffset, pyRound, List.lookup]

/-! ## Claim C4 -/
lemma flicker_update_finish (d : ℚ) (f : Flicker) (vis : Bool)
    (h : f.duration ≤ f.cur_time + d) :
    Flicker.update d f vis =
      some ({ f with cur_time := f.cur_time + d }, f.end_visibility) := by
  unfold Flicker.update
  rw [if_pos h]

lemma flicker_update_quiet (d : ℚ) (f : Flicker) (vis : Bool)
    (h1 : f.cur_time + d < f.duration) (h2 : f.cur_time + d < f.next_toggle) :
    Flicker.update d f vis =
      some ({ f with cur_time := f.cur_time + d }, vis) := by
  unfold Flicker.update
  rw [if_neg (not_le.mpr h1), if_neg (not_le.mpr h2)]

lemma flicker_update_hit (d : ℚ) (f : Flicker) (vis : Bool)
    (hd : f.cur_time + d = f.next_toggle)
    (hlt : f.next_toggle < f.duration) (hitv : 0 < f.interval) :
    Flicker.update d f vis =
      some ({ f with cur_time := f.cur_time + d,
                     next_toggle := f.next_toggle + f.interval,
                     visible := !f.visible }, !f.visible) := by
  unfold Flicker.update
  rw [if_neg (not_le.mpr (by rw [hd]; exact hlt))]
  rw [if_pos (le_of_eq hd.symm)]
  unfold flickerAdvance
  rw [if_pos (le_of_eq hd.symm), if_pos hitv]
  rw [hd]
  simp

lemma flicker_run_append (A B : List ℚ) :
    ∀ (f : Flicker) (vis : Bool),
      Flicker.run (A ++ B) f vis =
        Option.bind (Flicker.run A f vis) (fun p => Flicker.run B p.1 p.2) := by
  induction A with
  | nil => intro f vis; rfl
  | cons d rest ih =>
      intro f vis
      show (match Flicker.update d f vis with
            | none => none
            | some p => Flicker.run (rest ++ B) p.1 p.2) =
          Option.bind
            (match Flicker.update d f vis with
             | none => none
             | some p => Flicker.run rest p.1 p.2)
            (fun p => Flicker.run B p.1 p.2)
      cases hu : Flicker.update d f vis with
      | none => rfl
      | some p => exact ih p.1 p.2

lemma flicker_run_fields (dts : List ℚ) :
    ∀ (f : Flicker) (vis : Bool), 0 < f.interval →
      ∃ g v2, Flicker.run dts f vis = some (g, v2) ∧
        g.cur_time = f.cur_time + dts.sum ∧ g.duration = f.duration ∧
        g.interval = f.interval ∧ g.end_visibility = f.end_visibility := by
  induction dts with
  | nil =>
      intro f vis hitv
      exact ⟨f, vis, rfl, by simp, rfl, rfl, rfl⟩
  | cons d rest ih =>
      intro f vis hitv
      have hstep : ∃ g1 v1, Flicker.update d f vis = some (g1, v1) ∧
          g1.cur_time = f.cur_time + d ∧ g1.duration = f.duration ∧
          g1.interval = f.interval ∧ g1.end_visibility = f.end_visibility := by
        unfold Flicker.update
        by_cases hfin : f.duration ≤ f.cur_time + d
        · rw [if_pos hfin]
          exact ⟨_, _, rfl, rfl, rfl, rfl, rfl⟩
        · rw [if_neg hfin]
          by_cases htog : f.next_toggle ≤ f.cur_time + d
          · rw [if_pos htog]
            unfold flickerAdvance
            rw [if_pos htog, if_pos hitv]
            exact ⟨_, _, rfl, rfl, rfl, rfl, rfl⟩
          · rw [if_neg htog]
            exact ⟨_, _, rfl, rfl, rfl, rfl, rfl⟩
      obtain ⟨g1, v1, hu, hc, hd2, hi, he⟩ := hstep
      obtain ⟨g, v2, hrun, hc2, hd3, hi2, he2⟩ := ih g1 v1 (hi ▸ hitv)
      refine ⟨g, v2, ?_, ?_, by rw [hd3, hd2], by rw [hi2, hi],
        by rw [he2, he]⟩
      · show (match Flicker.update d f vis with
              | none => none
              | some p => Flicker.run rest p.1 p.2) = _
        rw [hu]
        exact hrun
      · rw [hc2, hc]
        show f.cur_time + d + rest.sum = f.cur_time + (d + rest.sum)
        ring

lemma flicker_run_quiet (L : List ℚ) :
    ∀ (f : Flicker) (vis : Bool), (∀ x ∈ L, 0 < x) →
      f.cur_time + L.sum < f.duration →
      f.cur_time + L.sum < f.next_toggle →
      Flicker.run L f vis =
        some ({ f with cur_time := f.cur_time + L.sum }, vis) := by
  induction L with
  | nil =>
      intro f vis _ _ _
      show some (f, vis) = _
      simp
  | cons d rest ih =>
      intro f vis hpos hdur htog
      have hrs : 0 ≤ rest.sum :=
        List.sum_nonneg (fun x hx => le_of_lt (hpos x (List.mem_cons_of_mem d hx)))
      have hsum : f.cur_time + (d :: rest).sum = f.cur_time + d + rest.sum := by
        show f.cur_time + (d + rest.sum) = f.cur_time + d + rest.sum
        ring
      have hd1 : f.cur_time + d < f.duration := by
        have : f.cur_time + d ≤ f.cur_time + (d :: rest).sum := by
          rw [hsum]; linarith
        linarith
      have hd2 : f.cur_time + d < f.next_toggle := by
        have : f.cur_time + d ≤ f.cur_time + (d :: rest).sum := by
          rw [hsum]; linarith
        linarith
      show (match Flicker.update d f vis with
            | none => none
            | some p => Flicker.run rest p.1 p.2) = _
      rw [flicker_update_quiet d f vis hd1 hd2]
      dsimp only
      have := ih { f with cur_time := f.cur_time + d } vis
        (fun x hx => hpos x (List.mem_cons_of_mem d hx))
        (by show f.cur_time + d + rest.sum < f.duration
            rw [← hsum]; exact hdur)
        (by show f.cur_time + d + rest.sum < f.next_toggle
            rw [← hsum]; exact htog)
      rw [this]
      dsimp only
      rw [show f.cur_time + d + rest.sum = f.cur_time + (d :: rest).sum
        from by rw [hsum]]

lemma flicker_run_phase (L : List ℚ) :
    ∀ (f : Flicker) (vis : Bool), (∀ x ∈ L, 0 < x) → L ≠ [] →
      f.cur_time + L.sum = f.next_toggle →
      f.next_toggle < f.duration → 0 < f.interval →
      Flicker.run L f vis =
        some ({ f with cur_time := f.next_toggle,
                       next_toggle := f.next_toggle + f.interval,
                       visible := !f.visible }, !f.visible) := by
  induction L with
  | nil => intro f vis _ hne _ _ _; exact absurd rfl hne
  | cons d rest ih =>
      intro f vis hpos hne hhit hlt hitv
      show (match Flicker.update d f vis with
            | none => none
            | some p => Flicker.run rest p.1 p.2) = _
      by_cases hr : rest = []
      · subst hr
        have hd : f.cur_time + d = f.next_toggle := by simpa using hhit
        rw [flicker_update_hit d f vis hd hlt hitv]
        dsimp only
        dsimp only [Flicker.run]
        rw [hd]
      · have hrs : 0 < rest.sum :=
          List.sum_pos rest
            (fun x hx => hpos x (List.mem_cons_of_mem d hx)) hr
        have hhit2 : f.cur_time + (d + rest.sum) = f.next_toggle := by
          simpa using hhit
        have hd1 : f.cur_time + d < f.next_toggle := by linarith
        have hd2 : f.cur_time + d < f.duration := lt_trans hd1 hlt
        rw [flicker_update_quiet d f vis hd2 hd1]
        dsimp only
        have hih := ih { f with cur_time := f.cur_time + d } vis
          (fun x hx => hpos x (List.mem_cons_of_mem d hx)) hr
          (by show f.cur_time + d + rest.sum = f.next_toggle; linarith)
          hlt hitv
        rw [hih]

lemma flicker_run_finish (L : List ℚ) (f : Flicker) (vis : Bool)
    (hne : L ≠ []) (hsum : f.cur_time + L.sum = f.duration)
    (hitv : 0 < f.interval) :
    ∃ g, Flicker.run L f vis = some (g, f.end_visibility) := by
  rcases List.eq_nil_or_concat L with h | ⟨l, d, rfl⟩
  · exact absurd h hne
  · obtain ⟨g1, v1, hrun, hc, hd2, _, he⟩ := flicker_run_fields l f vis hitv
    rw [List.concat_eq_append] at hsum ⊢
    rw [flicker_run_append, hrun]
    have hfin : g1.duration ≤ g1.cur_time + d := by
      rw [hd2, hc]
      have : f.cur_time + (l.sum + d) = f.duration := by
        simpa using hsum
      linarith
    refine ⟨{ g1 with cur_time := g1.cur_time + d }, ?_⟩
    show (match Flicker.update d g1 v1 with
          | none => none
          | some p => Flicker.run [] p.1 p.2) = _
    rw [flicker_update_finish d g1 v1 hfin]
    dsimp only
    dsimp only [Flicker.run]
    rw [he]

/-- C4 (amended): for every positive-tick partition of the 2.5 s
duration that has tick boundaries at t=1 and t=2 (so that no single
tick skips both toggle thresholds), the observed visibility after the
boundary ticks is false at t=1, true at t=2, and false at t=2.5; and
for every positive partition whatsoever (a single `update(2.5)`
included), the finish forces the end visibility false regardless of
toggle parity.  (Without the boundary proviso the claim fails: a tick
skipping several thresholds flips only once, see the
counterexample.) -/
theorem flicker_boundary_visibility :
    ∀ (L1 L2 L3 : List ℚ),
      (∀ x ∈ L1, 0 < x) → (∀ x ∈ L2, 0 < x) → (∀ x ∈ L3, 0 < x) →
      L1 ≠ [] → L2 ≠ [] → L3 ≠ [] →
      L1.sum = 1 → L2.sum = 1 → L3.sum = 1/2 →
      (∃ g1, Flicker.run L1 (Flicker.new 1 true false (5/2)) true =
          some (g1, false)) ∧
      (∃ g2, Flicker.run (L1 ++ L2) (Flicker.new 1 true false (5/2)) true =
          some (g2, true)) ∧
      (∃ g3, Flicker.run (L1 ++ L2 ++ L3)
          (Flicker.new 1 true false (5/2)) true = some (g3, false)) ∧
      (∀ L : List ℚ, L ≠ [] → L.sum = 5/2 →
        ∃ g, Flicker.run L (Flicker.new 1 true false (5/2)) true =
          some (g, false)) := by
  intro L1 L2 L3 hp1 hp2 hp3 hn1 hn2 hn3 hs1 hs2 hs3
  have hfin : ∀ L : List ℚ, L ≠ [] → L.sum = 5/2 →
      ∃ g, Flicker.run L (Flicker.new 1 true false (5/2)) true =
        some (g, false) := by
    intro L hne hs
    obtain ⟨g, hg⟩ := flicker_run_finish L (Flicker.new 1 true false (5/2))
      true hne (by simp [Flicker.new, hs]) (by norm_num [Flicker.new])
    exact ⟨g, hg⟩
  have phaseA : Flicker.run L1 (Flicker.new 1 true false (5/2)) true =
      some (flickA, false) := by
    rw [flicker_run_phase L1 (Flicker.new 1 true false (5/2)) true hp1 hn1
      (by simp [Flicker.new, hs1]) (by norm_num [Flicker.new])
      (by norm_num [Flicker.new])]
    norm_num [Flicker.new, flickA]
  have phaseB : Flicker.run L2 flickA false = some (flickB, true) := by
    rw [flicker_run_phase L2 flickA false hp2 hn2
      (by simp [flickA, hs2]; norm_num) (by norm_num [flickA])
      (by norm_num [flickA])]
    norm_num [flickA, flickB]
  refine ⟨⟨flickA, phaseA⟩, ⟨flickB, ?_⟩, ?_, hfin⟩
  · rw [flicker_run_append, phaseA]
    exact phaseB
  · exact hfin (L1 ++ L2 ++ L3)
      (by simp [List.append_eq_nil, hn1])
      (by simp [List.sum_append, hs1, hs2, hs3]; norm_num)

theorem flicker_boundary_visibility_witness :
    (∃ g1, Flicker.run [1] (Flicker.new 1 true false (5/2)) true =
        some (g1, false)) ∧
    (∃ g2, Flicker.run ([1] ++ [1]) (Flicker.new 1 true false (5/2)) true =
        some (g2, true)) ∧
    (∃ g3, Flicker.run ([1] ++ [1] ++ [1/2])
        (Flicker.new 1 true false (5/2)) true = some (g3, false)) ∧
    (∀ L : List ℚ, L ≠ [] → L.sum = 5/2 →
      ∃ g, Flicker.run L (Flicker.new 1 true false (5/2)) true =
        some (g, false)) :=
  flicker_boundary_visibility [1] [1] [1/2]
    (by norm_num) (by norm_num) (by norm_num)
    (by simp) (by simp) (by simp)
    (by simp) (by simp) (by norm_num)

/-- C4 counterexample: with the partition `[2.0, 0.5]` of the 2.5 s
duration, the tick reaching elapsed time 2 crosses both toggle
thresholds (1 and 2) but flips visibility only once, so the visibility
observed at elapsed 2 is false, not the true the claim requires of
every partition. -/
theorem flicker_coarse_tick_parity_loss :
    Option.map (fun p : Flicker × Bool => p.2)
        (Flicker.run [2] (Flicker.new 1 true false (5/2)) true) =
      some false ∧ false ≠ true := by
  refine ⟨?_, by simp⟩
  norm_num [Flicker.run, Flicker.update, Flicker.new, flickerAdvance]
